import Mathlib

/-!
Verification of the VPE COFF object reader/writer pair
(`src/lib/MC/VPEObjectWriter.cpp`, `src/lib/Object/VPEObjectFile.cpp`,
`src/lib/MC/MCVPEStreamer.cpp`) against its natural-language specification.

The definitions below are a shallow embedding of the C++ source: machine
integers become `Nat`/`Int` with explicit `% 2 ^ w` where truncation matters,
byte buffers become `List Nat`, fallible paths become `Option`/`Except`, and
the writer's fatal-error calls become `none`/`Except.error`.  Constants and
struct layouts that live in headers not shipped with the staging tree
(`llvm/BinaryFormat/COFF.h`, `llvm/Object/VPE.h`) are modelled from the spec
and marked as such in their doc comments.
-/

namespace VPE

/-- Models `COFF::NameSize`, the 8-byte inline name capacity of section and
symbol records (spec section 6 fixes the name field at 8 bytes). -/
def NameSize : Nat := 8

/-! ## Long section names: writer encoding (`VPEObjectWriter::SetSectionName`)
    and reader decoding (`VPEObjectFile::getSectionName`). -/

/-- Models the writer's `Max7DecimalOffset`: the largest string-table offset
encodable as `/` followed by at most 7 decimal digits. -/
def Max7DecimalOffset : Nat := 9999999

/-- Models the writer's `MaxBase64Offset`: the largest string-table offset
encodable as `//` followed by 6 base-64 characters, `64 ^ 6 - 1`. -/
def MaxBase64Offset : Nat := 0xFFFFFFFFF

/-- Models the `Alphabet` table of `encodeBase64StringEntry`. -/
def base64Alphabet : List Char :=
  "ABCDEFGHIJKLMNOPQRSTUVWXYZabcdefghijklmnopqrstuvwxyz0123456789+/".toList

/-- Models one table lookup `Alphabet[Rem]` with `Rem < 64`. -/
def b64digit (n : Nat) : Char := base64Alphabet.getD n 'A'

/-- Models `encodeBase64StringEntry`: an 8-byte buffer `//AAAAAA`-style.  The
loop fills slots 7 down to 2 with the base-64 digits of `v`, least significant
digit last. -/
def encodeBase64StringEntry (v : Nat) : List Char :=
  ['/', '/',
   b64digit (v / 64 ^ 5 % 64), b64digit (v / 64 ^ 4 % 64),
   b64digit (v / 64 ^ 3 % 64), b64digit (v / 64 ^ 2 % 64),
   b64digit (v / 64 % 64), b64digit (v % 64)]

/-- Models a `memcpy` of `cs` into the zero-initialised 8-byte `Header.Name`
field. -/
def nameField (cs : List Char) : List Char :=
  cs ++ List.replicate (NameSize - cs.length) (Char.ofNat 0)

/-- Models `VPEObjectWriter::SetSectionName` given the section's name and its
string-table offset (`Strings.getOffset`).  `none` models the fatal
`report_fatal_error` path for an offset beyond the base-64 range. -/
def SetSectionName (name : String) (stringTableEntry : Nat) : Option (List Char) :=
  if name.length ≤ NameSize then some (nameField name.toList)
  else if stringTableEntry ≤ Max7DecimalOffset then
    some (nameField ('/' :: Nat.toDigits 10 stringTableEntry))
  else if stringTableEntry ≤ MaxBase64Offset then
    some (encodeBase64StringEntry stringTableEntry)
  else none

/-- Models the character classification chain of the reader's
`decodeBase64StringEntry`; `none` models rejecting a character outside the
alphabet. -/
def b64charValue (c : Char) : Option Nat :=
  if 'A' ≤ c ∧ c ≤ 'Z' then some (c.toNat - 'A'.toNat)
  else if 'a' ≤ c ∧ c ≤ 'z' then some (c.toNat - 'a'.toNat + 26)
  else if '0' ≤ c ∧ c ≤ '9' then some (c.toNat - '0'.toNat + 52)
  else if c = '+' then some 62
  else if c = '/' then some 63
  else none

/-- Models the accumulation loop `Value = (Value * 64) + CharVal` of the
reader's `decodeBase64StringEntry`. -/
def decodeBase64Loop : List Char → Nat → Option Nat
  | [], v => some v
  | c :: cs, v =>
    match b64charValue c with
    | none => none
    | some d => decodeBase64Loop cs (v * 64 + d)

/-- Models the reader's `decodeBase64StringEntry`: at most 6 characters, each
in the alphabet, and a result fitting `uint32`. -/
def decodeBase64StringEntry (cs : List Char) : Option Nat :=
  if 6 < cs.length then none
  else
    match decodeBase64Loop cs 0 with
    | none => none
    | some v => if 0xFFFFFFFF < v then none else some v

/-- Models the digit-accumulation loop of `StringRef::getAsInteger` in radix
10; a non-digit character fails the parse. -/
def parseDigitsLoop : List Char → Nat → Option Nat
  | [], v => some v
  | c :: cs, v =>
    if c.isDigit then parseDigitsLoop cs (v * 10 + (c.toNat - '0'.toNat))
    else none

/-- Models `StringRef::getAsInteger(10, uint32)`: the string must be nonempty,
all decimal digits, and the value must fit `uint32`. -/
def getAsIntegerU32 (cs : List Char) : Option Nat :=
  if cs.isEmpty then none
  else
    match parseDigitsLoop cs 0 with
    | none => none
    | some v => if v ≤ 0xFFFFFFFF then some v else none

/-- Result of the reader's section-name classification: an inline name, or a
string-table reference by offset. -/
inductive SectionName where
  | inline (s : List Char)
  | stringTable (offset : Nat)
deriving DecidableEq

/-- Models the first step of `VPEObjectFile::getSectionName`: when byte 7 of
the name field is null the name is read as a C string (`strlen`), otherwise
all 8 bytes are used. -/
def readName8 (field : List Char) : List Char :=
  if field.getD (NameSize - 1) (Char.ofNat 0) = Char.ofNat 0 then
    field.takeWhile (fun c => c ≠ Char.ofNat 0)
  else field

/-- Models `VPEObjectFile::getSectionName` down to the string-table offset
(the final `getString` lookup is modelled separately); `none` models the
`parse_failed` result. -/
def getSectionNameOffset (field : List Char) : Option SectionName :=
  let name := readName8 field
  if name.take 1 = ['/'] then
    if name.take 2 = ['/', '/'] then
      match decodeBase64StringEntry (name.drop 2) with
      | none => none
      | some off => some (SectionName.stringTable off)
    else
      match getAsIntegerU32 (name.drop 1) with
      | none => none
      | some off => some (SectionName.stringTable off)
  else some (SectionName.inline name)

theorem digitChar_isDigit (m : Nat) (h : m < 10) : (Nat.digitChar m).isDigit = true := by
  interval_cases m <;> decide

theorem toDigitsCore_digits (fuel n : Nat) (acc : List Char)
    (hacc : ∀ c ∈ acc, c.isDigit = true) :
    ∀ c ∈ Nat.toDigitsCore 10 fuel n acc, c.isDigit = true := by
  induction fuel generalizing n acc with
  | zero => simpa [Nat.toDigitsCore] using hacc
  | succ fuel ih =>
    intro c hc
    simp only [Nat.toDigitsCore] at hc
    by_cases hzero : n / 10 = 0
    · simp only [hzero, if_pos] at hc
      rcases List.mem_cons.mp hc with h | h
      · exact h ▸ digitChar_isDigit _ (Nat.mod_lt _ (by omega))
      · exact hacc _ h
    · simp only [hzero, if_neg, if_false] at hc
      refine ih _ _ ?_ _ hc
      intro d hd
      rcases List.mem_cons.mp hd with h | h
      · exact h ▸ digitChar_isDigit _ (Nat.mod_lt _ (by omega))
      · exact hacc _ h

theorem toDigits_digits (n : Nat) : ∀ c ∈ Nat.toDigits 10 n, c.isDigit = true :=
  toDigitsCore_digits _ _ _ (by simp)

/-- C1: for a section whose name exceeds 8 bytes, the writer encodes the
string-table offset as `/` followed by decimal ASCII digits when the offset is
at most 9,999,999, and as `//` followed by a 6-character base-64 string when
it is larger (up to `64 ^ 6 - 1`); the reader's section-name decoding recovers
the exact original offset at the boundaries 0, 9,999,999, 10,000,000 and
`0xFFFFFFFF - 1`, with 9,999,998 taking the decimal path and 10,000,000 the
base-64 path. -/
theorem c1_long_name_encoding_roundtrip (name : String)
    (hlong : NameSize < name.length) :
    (∀ off, off ≤ Max7DecimalOffset →
      SetSectionName name off = some (nameField ('/' :: Nat.toDigits 10 off)) ∧
      ∀ c ∈ Nat.toDigits 10 off, c.isDigit = true) ∧
    (∀ off, Max7DecimalOffset < off → off ≤ MaxBase64Offset →
      SetSectionName name off = some (encodeBase64StringEntry off) ∧
      (encodeBase64StringEntry off).take 2 = ['/', '/'] ∧
      ((encodeBase64StringEntry off).drop 2).length = 6) ∧
    (∀ off ∈ [0, 9999999, 10000000, 0xFFFFFFFF - 1, 9999998],
      (SetSectionName name off).map getSectionNameOffset
        = some (some (SectionName.stringTable off))) ∧
    (∃ f, SetSectionName name 9999998 = some f ∧
      (readName8 f).take 2 ≠ ['/', '/']) ∧
    (∃ f, SetSectionName name 10000000 = some f ∧
      (readName8 f).take 2 = ['/', '/']) := by
  have h8 : ¬ name.length ≤ NameSize := by omega
  refine ⟨?_, ?_, ?_, ?_, ?_⟩
  · intro off hoff
    exact ⟨by simp [SetSectionName, if_neg h8, if_pos hoff], toDigits_digits off⟩
  · intro off h1 h2
    exact ⟨by simp [SetSectionName, if_neg h8, if_neg (Nat.not_le.mpr h1), if_pos h2],
      rfl, rfl⟩
  · intro off hoff
    fin_cases hoff <;> simp only [SetSectionName, if_neg h8] <;> decide
  · exact ⟨nameField ('/' :: Nat.toDigits 10 9999998),
      by simp only [SetSectionName, if_neg h8]; decide, by decide⟩
  · exact ⟨encodeBase64StringEntry 10000000,
      by simp only [SetSectionName, if_neg h8]; decide, by decide⟩

/-- Witness for C1 at the concrete name `"longsectionname"` and the boundary
offset 10,000,000 (base-64 path). -/
theorem c1_long_name_encoding_roundtrip_witness :
    (SetSectionName "longsectionname" 10000000).map getSectionNameOffset
      = some (some (SectionName.stringTable 10000000)) := by
  have h := c1_long_name_encoding_roundtrip "longsectionname" (by decide)
  exact h.2.2.1 10000000 (by decide)

/-! ## Relocation-count overflow: writer (`assignFileOffsets`, `writeSection`)
    and reader (`getNumberOfRelocations`, `getFirstReloc`). -/

/-- Models a staged or on-disk relocation record (`COFF::relocation`): virtual
address, symbol-table index and type, all little-endian unsigned fields. -/
structure Reloc where
  virtualAddress : Nat
  symbolTableIndex : Nat
  typ : Nat
deriving DecidableEq

/-- Models the `NumberOfRelocations` header field chosen by
`assignFileOffsets`: saturated to the 16-bit sentinel on overflow. -/
def numberOfRelocationsField (n : Nat) : Nat :=
  if 0xffff ≤ n then 0xffff else n

/-- Models the relocation records `writeSection` emits for a section: nothing
when there are none; otherwise, on overflow, a synthetic first record whose
(32-bit) virtual-address field holds the actual count plus one. -/
def emittedRelocations (relocs : List Reloc) : List Reloc :=
  if relocs.isEmpty then []
  else if 0xffff ≤ relocs.length then
    ⟨(relocs.length + 1) % 2 ^ 32, 0, 0⟩ :: relocs
  else relocs

/-- Modelled from the spec: `vpe_section::hasExtendedRelocations` is declared
in `llvm/Object/VPE.h`, which is not under src/; per the spec the reader takes
the extended path when the on-disk count field equals the 16-bit sentinel. -/
def hasExtendedRelocations (field : Nat) : Bool := field = 0xffff

/-- Models the reader's `getNumberOfRelocations`: on the sentinel, the first
record's virtual-address field minus one in `uint32` arithmetic (0 when that
record is out of bounds); otherwise the field itself. -/
def getNumberOfRelocations (field : Nat) (entries : List Reloc) : Nat :=
  if hasExtendedRelocations field then
    match entries with
    | [] => 0
    | e :: _ => (e.virtualAddress + (2 ^ 32 - 1)) % 2 ^ 32
  else field

/-- Models `getFirstReloc` plus `section_rel_begin`/`section_rel_end`: the
records iteration visits, skipping the synthetic count entry on the extended
path and yielding nothing when the claimed range is out of bounds. -/
def readRelocations (field : Nat) (entries : List Reloc) : List Reloc :=
  let n := getNumberOfRelocations field entries
  if n = 0 then []
  else
    let rest := if hasExtendedRelocations field then entries.drop 1 else entries
    if rest.length < n then [] else rest.take n

/-- C2: a section with exactly 65,535 relocations stores the sentinel `0xFFFF`
in the on-disk count field and a synthetic first record with virtual address
65,536; one with 65,534 stores the literal count and no synthetic record; and
for any relocation list whose count fits the encoding, the reader recovers the
count (virtual address minus one on the sentinel) and skips the synthetic
record when iterating. -/
theorem c2_relocation_overflow_roundtrip (relocs : List Reloc)
    (hcount : relocs.length + 1 < 2 ^ 32) :
    (relocs.length = 65535 →
      numberOfRelocationsField relocs.length = 0xffff ∧
      emittedRelocations relocs = ⟨65536, 0, 0⟩ :: relocs) ∧
    (relocs.length = 65534 →
      numberOfRelocationsField relocs.length = 65534 ∧
      emittedRelocations relocs = relocs) ∧
    getNumberOfRelocations (numberOfRelocationsField relocs.length)
      (emittedRelocations relocs) = relocs.length ∧
    readRelocations (numberOfRelocationsField relocs.length)
      (emittedRelocations relocs) = relocs := by
  have hne : relocs.isEmpty = (relocs.length = 0 : Bool) := by
    cases relocs <;> simp
  by_cases hovf : 0xffff ≤ relocs.length
  · have hlen0 : ¬ relocs.length = 0 := by omega
    have hmod : (relocs.length + 1) % 2 ^ 32 = relocs.length + 1 :=
      Nat.mod_eq_of_lt hcount
    have hfield : numberOfRelocationsField relocs.length = 0xffff := by
      simp [numberOfRelocationsField, hovf]
    have hemit : emittedRelocations relocs = ⟨relocs.length + 1, 0, 0⟩ :: relocs := by
      cases relocs with
      | nil => simp at hlen0
      | cons a l =>
        have h1 : 65534 ≤ l.length := by
          simp only [List.length_cons] at hovf
          omega
        have h2 : (l.length + 1 + 1) % 4294967296 = l.length + 1 + 1 := by
          simp only [List.length_cons] at hcount
          omega
        simp [emittedRelocations, h1, h2]
    have hread2 : getNumberOfRelocations 65535
        (⟨relocs.length + 1, 0, 0⟩ :: relocs) = relocs.length := by
      show (if hasExtendedRelocations 65535 = true then
          (relocs.length + 1 + (2 ^ 32 - 1)) % 2 ^ 32 else 65535) = relocs.length
      rw [if_pos (show hasExtendedRelocations 65535 = true from rfl)]
      omega
    have hread : getNumberOfRelocations (numberOfRelocationsField relocs.length)
        (emittedRelocations relocs) = relocs.length := by
      rw [hfield, hemit]
      exact hread2
    refine ⟨?_, fun h => absurd h (by omega), hread, ?_⟩
    · intro h65535
      refine ⟨hfield, ?_⟩
      rw [hemit, h65535]
    · rw [hfield, hemit]
      simp only [readRelocations, hread2]
      rw [if_neg hlen0, if_pos (show hasExtendedRelocations 65535 = true from rfl)]
      simp only [List.drop_succ_cons, List.drop_zero]
      rw [if_neg (lt_irrefl relocs.length), List.take_length]
  · have hfield : numberOfRelocationsField relocs.length = relocs.length := by
      simp [numberOfRelocationsField, hovf]
    have hext : hasExtendedRelocations relocs.length = false := by
      simp only [hasExtendedRelocations, decide_eq_false_iff_not]
      omega
    have hemit : emittedRelocations relocs = relocs := by
      by_cases h0 : relocs.length = 0
      · cases relocs with
        | nil => rfl
        | cons a l => simp at h0
      · simp [emittedRelocations, hne, h0, hovf]
    have hread : getNumberOfRelocations (numberOfRelocationsField relocs.length)
        (emittedRelocations relocs) = relocs.length := by
      rw [hfield, hemit]
      simp [getNumberOfRelocations, hext]
    refine ⟨fun h => absurd h (by omega), ?_, hread, ?_⟩
    · intro h65534
      exact ⟨by rw [hfield, h65534], hemit⟩
    · rw [readRelocations]
      simp only [hread]
      by_cases h0 : relocs.length = 0
      · have : relocs = [] := List.length_eq_zero.mp h0
        simp [this, h0]
      · simp [h0, hfield, hemit, hext]

/-- Witness for C2 at a concrete one-record relocation list. -/
theorem c2_relocation_overflow_roundtrip_witness :
    getNumberOfRelocations (numberOfRelocationsField 1)
      (emittedRelocations [⟨0, 7, 3⟩]) = 1 ∧
    readRelocations (numberOfRelocationsField 1)
      (emittedRelocations [⟨0, 7, 3⟩]) = [⟨0, 7, 3⟩] := by
  have h := c2_relocation_overflow_roundtrip [⟨0, 7, 3⟩] (by decide)
  exact ⟨h.2.2.1, h.2.2.2⟩

/-! ## Section numbering (`assignSectionNumbers`) and the COMDAT association
    built by `defineSection` and resolved in `writeObject`. -/

/-- Models `COFF::IMAGE_COMDAT_SELECT_ASSOCIATIVE` (value from the COFF format;
only its identity matters below). -/
def IMAGE_COMDAT_SELECT_ASSOCIATIVE : Nat := 5

/-- Models a staged section as `defineSection` sees it: the COMDAT selection
stored in its section-definition auxiliary record, and the id of the section's
COMDAT symbol (`MCSectionVPE::getCOMDATSymbol`), if any. -/
structure SecDef where
  selection : Nat
  comdatSym : Option Nat
deriving DecidableEq

/-- Models `isAssociative` from the writer. -/
def isAssociative (s : SecDef) : Bool :=
  s.selection == IMAGE_COMDAT_SELECT_ASSOCIATIVE

/-- Association-list lookup used to model the `COMDATSymbol->Section`
pointers. -/
def mapLookup (c : Nat) : List (Nat × Nat) → Option Nat
  | [] => none
  | (k, v) :: rest => if k = c then some v else mapLookup c rest

/-- Models the COMDAT registration in `defineSection`: every non-associative
section with a COMDAT symbol records itself as that symbol's section; a second
registration for the same symbol is the fatal "two sections have the same
comdat" (`none`).  The accumulated list maps symbol id to section index. -/
def comdatSectionMapAux : List (Nat × SecDef) → List (Nat × Nat) → Option (List (Nat × Nat))
  | [], m => some m
  | (i, s) :: rest, m =>
    if isAssociative s then comdatSectionMapAux rest m
    else
      match s.comdatSym with
      | none => comdatSectionMapAux rest m
      | some c =>
        if (mapLookup c m).isSome then none
        else comdatSectionMapAux rest (m ++ [(c, i)])

/-- The COMDAT symbol-to-section map after `defineSection` ran over all
sections in definition order. -/
def comdatSectionMap (secs : List SecDef) : Option (List (Nat × Nat)) :=
  comdatSectionMapAux secs.enum []

/-- Models the `Sym->Section = Sec` assignments `DefineSymbol` performs after
all sections are defined: a non-weak symbol whose base fragment lives in
section `sec` records that section as its own; a symbol whose section pointer
is already set to a different section is the fatal "conflicting sections for
symbol" (`none`).  These assignments extend the map built by `defineSection`,
so a COMDAT symbol defined inside an associative section can end up pointing
at that associative section. -/
def defineSymbolSections : List (Nat × Nat) → List (Nat × Nat) → Option (List (Nat × Nat))
  | [], m => some m
  | (sym, sec) :: rest, m =>
    match mapLookup sym m with
    | some s => if s ≠ sec then none else defineSymbolSections rest m
    | none => defineSymbolSections rest (m ++ [(sym, sec)])

/-- The symbol-to-section map `writeObject` sees: first the COMDAT
registrations of `defineSection`, then the section assignments of
`DefineSymbol` (`executePostLayoutBinding` runs them in that order).
`symDefs` lists each defined symbol with the index of the section holding its
base fragment. -/
def comdatSymbolSections (secs : List SecDef) (symDefs : List (Nat × Nat)) :
    Option (List (Nat × Nat)) :=
  match comdatSectionMap secs with
  | none => none
  | some m => defineSymbolSections symDefs m

/-- Models how `writeObject` resolves the associated section of associative
section `j`: through its COMDAT symbol's recorded section
(`GetOrCreateVPESymbol(COMDAT)->Section`), which either `defineSection` (for
non-associative sections) or `DefineSymbol` (for symbols defined inside any
section, associative ones included) may have set. -/
def associativeTarget (secs : List SecDef) (symDefs : List (Nat × Nat)) (j : Nat) :
    Option Nat :=
  match secs[j]? with
  | none => none
  | some s =>
    if isAssociative s then
      match s.comdatSym with
      | none => none
      | some c =>
        match comdatSymbolSections secs symDefs with
        | none => none
        | some m => mapLookup c m
    else none

/-- Models one pass of `assignSectionNumbers`: visit the indexed sections in
order and assign the running counter to those whose associativity equals
`assoc`.  Returns the (section index, section number) assignments of the pass
and the counter it leaves behind. -/
def assignPass (assoc : Bool) : List (Nat × SecDef) → Nat → List (Nat × Nat) × Nat
  | [], c => ([], c)
  | (i, s) :: rest, c =>
    if isAssociative s = assoc then
      let r := assignPass assoc rest (c + 1)
      ((i, c) :: r.1, r.2)
    else assignPass assoc rest c

/-- Models `VPEObjectWriter::assignSectionNumbers`: 1-based numbers, all
non-associative sections first in definition order, then all associative
ones. -/
def assignSectionNumbers (secs : List SecDef) : List (Nat × Nat) :=
  let e := secs.enum
  let p1 := assignPass false e 1
  let p2 := assignPass true e p1.2
  p1.1 ++ p2.1

theorem assignPass_counter_le (assoc : Bool) (l : List (Nat × SecDef)) (c : Nat) :
    c ≤ (assignPass assoc l c).2 := by
  induction l generalizing c with
  | nil => simp [assignPass]
  | cons p rest ih =>
    obtain ⟨i, s⟩ := p
    by_cases h : isAssociative s = assoc
    · simpa [assignPass, h] using le_trans (by omega) (ih (c + 1))
    · simpa [assignPass, h] using ih c

theorem assignPass_mem_bounds (assoc : Bool) (l : List (Nat × SecDef)) (c i n : Nat)
    (h : (i, n) ∈ (assignPass assoc l c).1) :
    c ≤ n ∧ n < (assignPass assoc l c).2 ∧
      ∃ s, (i, s) ∈ l ∧ isAssociative s = assoc := by
  induction l generalizing c with
  | nil => simp [assignPass] at h
  | cons p rest ih =>
    obtain ⟨j, s⟩ := p
    by_cases hj : isAssociative s = assoc
    · simp only [assignPass, hj, if_pos, List.mem_cons] at h
      rcases h with h | h
      · simp only [Prod.mk.injEq] at h
        obtain ⟨rfl, rfl⟩ := h
        refine ⟨le_refl n, ?_, ⟨s, List.mem_cons_self _ _, hj⟩⟩
        have hle := assignPass_counter_le assoc rest (n + 1)
        simp [assignPass, hj]
        omega
      · obtain ⟨h1, h2, s2, hs2, hs2a⟩ := ih (c + 1) h
        refine ⟨by omega, ?_, ⟨s2, List.mem_cons_of_mem _ hs2, hs2a⟩⟩
        simpa [assignPass, hj] using h2
    · simp only [assignPass, hj, if_neg, if_false] at h
      obtain ⟨h1, h2, s2, hs2, hs2a⟩ := ih c h
      exact ⟨h1, by simpa [assignPass, hj] using h2,
        ⟨s2, List.mem_cons_of_mem _ hs2, hs2a⟩⟩

/-- C3 counterexample: the claimed ordering fails on the code when the target
section is itself associative.  Section 0 is non-associative with COMDAT
symbol 0; section 1 is associative to symbol 1; section 2 is associative to
symbol 0; and symbol 1 is defined inside section 2 (`DefineSymbol` sets its
section pointer there), so section 1 resolves its associated target to the
associative section 2 without any fatal error.  Section 1 is defined before
its target, yet the two-pass numbering gives the target number 3 and
section 1 number 2: the target's number is not smaller. -/
theorem c3_counterexample_associative_target :
    associativeTarget
      [⟨2, some 0⟩, ⟨IMAGE_COMDAT_SELECT_ASSOCIATIVE, some 1⟩,
       ⟨IMAGE_COMDAT_SELECT_ASSOCIATIVE, some 0⟩] [(1, 2)] 1 = some 2 ∧
    (2, 3) ∈ assignSectionNumbers
      [⟨2, some 0⟩, ⟨IMAGE_COMDAT_SELECT_ASSOCIATIVE, some 1⟩,
       ⟨IMAGE_COMDAT_SELECT_ASSOCIATIVE, some 0⟩] ∧
    (1, 2) ∈ assignSectionNumbers
      [⟨2, some 0⟩, ⟨IMAGE_COMDAT_SELECT_ASSOCIATIVE, some 1⟩,
       ⟨IMAGE_COMDAT_SELECT_ASSOCIATIVE, some 0⟩] ∧
    ¬ 3 < 2 := by decide

/-- C3 (amended): section numbers are assigned 1-based in two passes,
non-associative sections first, so an associative section receives a larger
number than the section it is associated with whenever that target section is
itself non-associative — in particular also when the associative section is
defined first.  (When the target is itself associative, both sections land in
the second pass and the ordering can fail; see the counterexample above.) -/
theorem c3_associative_section_numbered_after_target (secs : List SecDef)
    (symDefs : List (Nat × Nat)) (i j nA nB : Nat) (sA : SecDef)
    (htarget : associativeTarget secs symDefs j = some i)
    (hsA : secs[i]? = some sA)
    (hAnonassoc : isAssociative sA = false)
    (hA : (i, nA) ∈ assignSectionNumbers secs)
    (hB : (j, nB) ∈ assignSectionNumbers secs) :
    1 ≤ nA ∧ nA < nB := by
  -- Section j must be associative for the fixup to resolve a target at all.
  have hj : ∃ sB, secs[j]? = some sB ∧ isAssociative sB = true := by
    cases hsj : secs[j]? with
    | none => simp [associativeTarget, hsj] at htarget
    | some sB =>
      by_cases hb : isAssociative sB = true
      · exact ⟨sB, rfl, hb⟩
      · rw [Bool.not_eq_true] at hb
        simp [associativeTarget, hsj, hb] at htarget
  obtain ⟨sB, hsB, hassocB⟩ := hj
  -- Locate the two entries in their passes.
  have hAmem : (i, nA) ∈ (assignPass false secs.enum 1).1 := by
    rcases List.mem_append.mp hA with h | h
    · exact h
    · obtain ⟨_, _, s2, hs2, hs2a⟩ := assignPass_mem_bounds _ _ _ _ _ h
      have h3 : some sA = some s2 := by
        rw [← hsA, List.mk_mem_enum_iff_getElem?.mp hs2]
      obtain rfl := Option.some.inj h3
      rw [hAnonassoc] at hs2a
      exact absurd hs2a (by simp)
  have hBmem : (j, nB) ∈
      (assignPass true secs.enum (assignPass false secs.enum 1).2).1 := by
    rcases List.mem_append.mp hB with h | h
    · obtain ⟨_, _, s2, hs2, hs2a⟩ := assignPass_mem_bounds _ _ _ _ _ h
      have h3 : some sB = some s2 := by
        rw [← hsB, List.mk_mem_enum_iff_getElem?.mp hs2]
      obtain rfl := Option.some.inj h3
      rw [hassocB] at hs2a
      exact absurd hs2a (by simp)
    · exact h
  obtain ⟨h1A, h2A, _⟩ := assignPass_mem_bounds _ _ _ _ _ hAmem
  obtain ⟨h1B, _, _⟩ := assignPass_mem_bounds _ _ _ _ _ hBmem
  exact ⟨h1A, by omega⟩

/-- Witness for the amended C3: two sections where the associative one comes
first in definition order and is associated (through COMDAT symbol 7, with no
symbol definitions overriding the registration) with the non-associative
section defined after it; the target still gets the smaller number. -/
theorem c3_associative_section_numbered_after_target_witness :
    1 ≤ 1 ∧ 1 < 2 :=
  c3_associative_section_numbered_after_target
    [⟨IMAGE_COMDAT_SELECT_ASSOCIATIVE, some 7⟩, ⟨2, some 7⟩] [] 1 0 1 2
    ⟨2, some 7⟩ (by decide) (by decide) (by decide) (by decide) (by decide)

/-! ## Symbols, auxiliary records, weak externals
    (`DefineSymbol`, the index-assignment and fixup loops of `writeObject`). -/

/-- Models `COFF::IMAGE_SYM_CLASS_NULL`. -/
def IMAGE_SYM_CLASS_NULL : Nat := 0
/-- Models `COFF::IMAGE_SYM_CLASS_EXTERNAL`. -/
def IMAGE_SYM_CLASS_EXTERNAL : Nat := 2
/-- Models `COFF::IMAGE_SYM_CLASS_STATIC`. -/
def IMAGE_SYM_CLASS_STATIC : Nat := 3
/-- Models `COFF::IMAGE_SYM_CLASS_WEAK_EXTERNAL`. -/
def IMAGE_SYM_CLASS_WEAK_EXTERNAL : Nat := 105
/-- Models `COFF::IMAGE_SYM_ABSOLUTE`, the reserved absolute section
pseudo-index. -/
def IMAGE_SYM_ABSOLUTE : Int := -1
/-- Models `COFF::IMAGE_SYM_DEBUG`, the reserved debug section
pseudo-index. -/
def IMAGE_SYM_DEBUG : Int := -2
/-- Models `COFF::IMAGE_WEAK_EXTERN_SEARCH_LIBRARY`. -/
def IMAGE_WEAK_EXTERN_SEARCH_LIBRARY : Nat := 2

/-- Models the writer's `AuxSymbol`: a tagged union over the five auxiliary
variants (`AuxiliaryType` plus the fields `WriteAuxiliarySymbols` serialises).
The `file` variant carries the raw name-chunk bytes `createFileSymbols`
copies in. -/
inductive AuxRecord where
  | functionDefinition (tagIndex totalSize pointerToLinenumber pointerToNextFunction : Nat)
  | bfAndefSymbol (linenumber pointerToNextFunction : Nat)
  | weakExternal (tagIndex characteristics : Nat)
  | file (bytes : List Nat)
  | sectionDefinition (sdLength numberOfRelocations numberOfLinenumbers checkSum number selection : Nat)
deriving DecidableEq

/-- Models the writer's `VPESymbol` staging record: name, `COFF::symbol`
fields, the auxiliary list, the optional weak-external fallback (`Other`,
modelled as an index into the `Symbols` array), and the optional owning
section (`Section`, by section index). -/
structure WSymbol where
  name : String
  value : Nat := 0
  sectionNumber : Int := 0
  typ : Nat := 0
  storageCls : Nat := 0
  aux : List AuxRecord := []
  other : Option Nat := none
  sectionRef : Option Nat := none
deriving DecidableEq

/-- Models `DefineSymbol` for a weak-external symbol with no linked default
(`getLinkedSymbol` returned null): the weak symbol is created fresh
(`GetOrCreateVPESymbol` appends it) and a `.weak.<name>.default` fallback is
synthesized after it.  `sec` is the section resolved from the symbol's base
fragment; `value`, `typ`, `cls` and `isExternal` describe the assembler
symbol, and per the source they are applied to the synthesized fallback
(`Local`), including the storage-class defaulting. -/
def DefineSymbolWeakNoDefault (syms : List WSymbol) (name : String)
    (sec : Option Nat) (value typ cls : Nat) (isExternal : Bool) : List WSymbol :=
  let weak : WSymbol :=
    { name := name
      storageCls := IMAGE_SYM_CLASS_WEAK_EXTERNAL
      aux := [AuxRecord.weakExternal 0 IMAGE_WEAK_EXTERN_SEARCH_LIBRARY]
      other := some (syms.length + 1) }
  let fallback : WSymbol :=
    { name := ".weak." ++ name ++ ".default"
      sectionNumber := if sec.isNone then IMAGE_SYM_ABSOLUTE else 0
      sectionRef := sec
      value := value
      typ := typ
      storageCls :=
        if cls = IMAGE_SYM_CLASS_NULL then
          if isExternal then IMAGE_SYM_CLASS_EXTERNAL else IMAGE_SYM_CLASS_STATIC
        else cls }
  syms ++ [weak, fallback]

/-- Models the index-assignment loop of `writeObject`:
`Symbol->setIndex(NumberOfSymbols++)` followed by
`NumberOfSymbols += NumberOfAuxSymbols`.  Pairs every symbol with its final
symbol-table index. -/
def assignSymbolIndices : List WSymbol → Nat → List (WSymbol × Nat)
  | [], _ => []
  | s :: rest, c => (s, c) :: assignSymbolIndices rest (c + 1 + s.aux.length)

/-- Total number of symbol-table entries a symbol list occupies (each symbol
plus its auxiliary records); the final value of `Header.NumberOfSymbols`. -/
def totalSymbolEntries (syms : List WSymbol) : Nat :=
  syms.foldl (fun c s => c + 1 + s.aux.length) 0

/-- Models the in-place update `Aux[0].Aux.WeakExternal.TagIndex = idx`
performed by the weak-external fixup (the source asserts the aux list is
exactly one weak-external record at that point). -/
def setWeakTagIndex (aux : List AuxRecord) (idx : Nat) : List AuxRecord :=
  match aux with
  | [AuxRecord.weakExternal _ ch] => [AuxRecord.weakExternal idx ch]
  | a => a

/-- Models the weak-external fixup loop of `writeObject`: every symbol whose
`Other` pointer is set gets its weak-external tag index replaced by the
target symbol's final index (`Symbol->Other->getIndex()`). -/
def fixupWeakExternals (syms : List (WSymbol × Nat)) : List (WSymbol × Nat) :=
  syms.map fun p =>
    match p.1.other with
    | none => p
    | some k =>
      match syms[k]? with
      | none => p
      | some q => ({ p.1 with aux := setWeakTagIndex p.1.aux q.2 }, p.2)

theorem totalSymbolEntries_fold (syms : List WSymbol) (c : Nat) :
    syms.foldl (fun c s => c + 1 + s.aux.length) c = c + totalSymbolEntries syms := by
  induction syms generalizing c with
  | nil => simp [totalSymbolEntries]
  | cons s rest ih =>
    rw [List.foldl_cons, ih]
    have h1 : totalSymbolEntries (s :: rest) = 0 + 1 + s.aux.length + totalSymbolEntries rest := by
      rw [totalSymbolEntries, List.foldl_cons, ih]
    rw [h1]
    omega

theorem assignSymbolIndices_append (l1 l2 : List WSymbol) (c : Nat) :
    assignSymbolIndices (l1 ++ l2) c =
      assignSymbolIndices l1 c ++ assignSymbolIndices l2 (c + totalSymbolEntries l1) := by
  induction l1 generalizing c with
  | nil => simp [assignSymbolIndices, totalSymbolEntries]
  | cons s rest ih =>
    rw [List.cons_append]
    simp only [assignSymbolIndices]
    rw [ih, List.cons_append]
    have h2 : c + totalSymbolEntries (s :: rest) = c + 1 + s.aux.length + totalSymbolEntries rest := by
      rw [totalSymbolEntries, List.foldl_cons, totalSymbolEntries_fold]
      omega
    rw [h2]

theorem assignSymbolIndices_length (l : List WSymbol) (c : Nat) :
    (assignSymbolIndices l c).length = l.length := by
  induction l generalizing c with
  | nil => rfl
  | cons s rest ih => simp [assignSymbolIndices, ih]

theorem fixupWeakExternals_getElem_none (l : List (WSymbol × Nat)) (k : Nat)
    (p : WSymbol × Nat) (h : l[k]? = some p) (hno : p.1.other = none) :
    (fixupWeakExternals l)[k]? = some p := by
  rw [fixupWeakExternals, List.getElem?_map, h]
  simp [hno]

theorem fixupWeakExternals_getElem_some (l : List (WSymbol × Nat)) (k t : Nat)
    (p q : WSymbol × Nat) (h : l[k]? = some p) (ho : p.1.other = some t)
    (hq : l[t]? = some q) :
    (fixupWeakExternals l)[k]? =
      some ({ p.1 with aux := setWeakTagIndex p.1.aux q.2 }, p.2) := by
  rw [fixupWeakExternals, List.getElem?_map, h]
  simp [ho, hq]

/-- C4: defining a weak-external symbol with no explicit default target
synthesizes a `.weak.<name>.default` fallback right after it, marks the
fallback absolute exactly when the symbol carried no section, gives the weak
symbol exactly one weak-external auxiliary record, and the finalize pass sets
that record's tag index to the fallback's final symbol-table index. -/
theorem c4_weak_external_default (syms : List WSymbol) (name : String)
    (sec : Option Nat) (value typ cls : Nat) (isExternal : Bool) :
    ∃ weakFinal fallbackFinal : WSymbol × Nat,
      (fixupWeakExternals
          (assignSymbolIndices
            (DefineSymbolWeakNoDefault syms name sec value typ cls isExternal) 0))[syms.length]?
        = some weakFinal ∧
      (fixupWeakExternals
          (assignSymbolIndices
            (DefineSymbolWeakNoDefault syms name sec value typ cls isExternal) 0))[syms.length + 1]?
        = some fallbackFinal ∧
      fallbackFinal.1.name = ".weak." ++ name ++ ".default" ∧
      (sec = none → fallbackFinal.1.sectionNumber = IMAGE_SYM_ABSOLUTE) ∧
      (∀ secIdx, sec = some secIdx → fallbackFinal.1.sectionRef = some secIdx) ∧
      weakFinal.1.storageCls = IMAGE_SYM_CLASS_WEAK_EXTERNAL ∧
      weakFinal.1.aux =
        [AuxRecord.weakExternal fallbackFinal.2 IMAGE_WEAK_EXTERN_SEARCH_LIBRARY] ∧
      fallbackFinal.2 = totalSymbolEntries syms + 2 := by
  set weak : WSymbol :=
    { name := name
      storageCls := IMAGE_SYM_CLASS_WEAK_EXTERNAL
      aux := [AuxRecord.weakExternal 0 IMAGE_WEAK_EXTERN_SEARCH_LIBRARY]
      other := some (syms.length + 1) } with hweak
  set fallback : WSymbol :=
    { name := ".weak." ++ name ++ ".default"
      sectionNumber := if sec.isNone then IMAGE_SYM_ABSOLUTE else 0
      sectionRef := sec
      value := value
      typ := typ
      storageCls :=
        if cls = IMAGE_SYM_CLASS_NULL then
          if isExternal then IMAGE_SYM_CLASS_EXTERNAL else IMAGE_SYM_CLASS_STATIC
        else cls } with hfallback
  have hdef : DefineSymbolWeakNoDefault syms name sec value typ cls isExternal
      = syms ++ [weak, fallback] := rfl
  have hassign : assignSymbolIndices (syms ++ [weak, fallback]) 0
      = assignSymbolIndices syms 0 ++
        [(weak, totalSymbolEntries syms),
         (fallback, totalSymbolEntries syms + 2)] := by
    rw [assignSymbolIndices_append]
    congr 1
    simp only [assignSymbolIndices, hweak]
    norm_num
  have hlen : (assignSymbolIndices syms 0).length = syms.length :=
    assignSymbolIndices_length syms 0
  have hgetWeak : (assignSymbolIndices (syms ++ [weak, fallback]) 0)[syms.length]?
      = some (weak, totalSymbolEntries syms) := by
    rw [hassign, List.getElem?_append_right (by omega)]
    simp [hlen]
  have hgetFallback :
      (assignSymbolIndices (syms ++ [weak, fallback]) 0)[syms.length + 1]?
      = some (fallback, totalSymbolEntries syms + 2) := by
    rw [hassign, List.getElem?_append_right (by omega)]
    simp [hlen]
  have hfixWeak := fixupWeakExternals_getElem_some
    (assignSymbolIndices (syms ++ [weak, fallback]) 0) syms.length (syms.length + 1)
    (weak, totalSymbolEntries syms) (fallback, totalSymbolEntries syms + 2)
    hgetWeak rfl hgetFallback
  have hfixFallback := fixupWeakExternals_getElem_none
    (assignSymbolIndices (syms ++ [weak, fallback]) 0) (syms.length + 1)
    (fallback, totalSymbolEntries syms + 2) hgetFallback rfl
  refine ⟨_, _, hdef ▸ hfixWeak, hdef ▸ hfixFallback, rfl, ?_, ?_, rfl, rfl, rfl⟩
  · intro hnone
    subst hnone
    rfl
  · intro secIdx hsec
    exact hsec

/-! ## Symbol-record serialization (`WriteSymbol`, `WriteAuxiliarySymbols`)
    and the big-object selection of `writeObject`. -/

/-- Models `COFF::Symbol16Size`: 18 bytes per symbol entry in the regular
layout (spec section 6: name 8, value 4, section number 2, type 2, storage
class 1, aux count 1). -/
def Symbol16Size : Nat := 18

/-- Models `COFF::Symbol32Size`: 20 bytes per symbol entry in the big-object
layout, whose section-number field is 4 bytes wide. -/
def Symbol32Size : Nat := 20

/-- Little-endian bytes of a 16-bit write (`W.write<uint16_t>`). -/
def le16 (v : Nat) : List Nat := [v % 256, v / 256 % 256]

/-- Little-endian bytes of a 32-bit write (`W.write<uint32_t>`). -/
def le32 (v : Nat) : List Nat :=
  [v % 256, v / 256 % 256, v / 2 ^ 16 % 256, v / 2 ^ 24 % 256]

/-- Models `static_cast<int16_t>` of a possibly negative section number,
re-read as the unsigned 16-bit value that lands on disk. -/
def toU16 (i : Int) : Nat := (i % 65536).toNat

/-- Models the 32-bit two's-complement image of a possibly negative section
number in the big-object layout. -/
def toU32 (i : Int) : Nat := (i % 4294967296).toNat

/-- Models `SetSymbolName` plus `set_name_offset`: the 8 name bytes of a
symbol record — the name inline (zero-padded) when it fits, otherwise a
4-byte zero field followed by the 4-byte string-table offset. -/
def symbolNameBytes (name : String) (stringTableEntry : Nat) : List Nat :=
  if NameSize < name.length then le32 0 ++ le32 stringTableEntry
  else name.toList.map Char.toNat ++ List.replicate (NameSize - name.length) 0

/-- Modelled from the spec: the `unused` paddings inside the auxiliary-record
structs live in `llvm/BinaryFormat/COFF.h`, which is not under src/; the spec
fixes each auxiliary record at exactly one symbol-entry-sized slot, so the
paddings make every variant 18 bytes, plus 2 trailing zero bytes in the
big-object layout (`Symbol32Size - Symbol16Size`). -/
def auxPad (big : Bool) : List Nat := if big then [0, 0] else []

/-- Models one case of `WriteAuxiliarySymbols`. -/
def writeAuxRecordBytes (big : Bool) : AuxRecord → List Nat
  | .functionDefinition t sz pl pn =>
      le32 t ++ le32 sz ++ le32 pl ++ le32 pn ++ [0, 0] ++ auxPad big
  | .bfAndefSymbol ln pn =>
      [0, 0, 0, 0] ++ le16 ln ++ [0, 0, 0, 0, 0, 0] ++ le32 pn ++ [0, 0] ++ auxPad big
  | .weakExternal t ch =>
      le32 t ++ le32 ch ++ List.replicate 10 0 ++ auxPad big
  | .file bs =>
      (bs ++ List.replicate (if big then Symbol32Size else Symbol16Size) 0).take
        (if big then Symbol32Size else Symbol16Size)
  | .sectionDefinition len nr nl cs num sel =>
      le32 len ++ le16 nr ++ le16 nl ++ le32 cs ++ le16 (num % 65536) ++
        [sel % 256] ++ [0] ++ le16 (num / 65536 % 65536) ++ auxPad big

/-- Models `VPEObjectWriter::WriteSymbol`: name bytes, value, the 16-bit or
32-bit section number depending on the header variant, type, storage class,
aux count, then each auxiliary record. -/
def WriteSymbol (big : Bool) (nameBytes : List Nat) (s : WSymbol) : List Nat :=
  nameBytes ++ le32 s.value ++
  (if big then le32 (toU32 s.sectionNumber) else le16 (toU16 s.sectionNumber)) ++
  le16 s.typ ++ [s.storageCls % 256, s.aux.length % 256] ++
  (s.aux.map (writeAuxRecordBytes big)).flatten

/-- Modelled from the spec: `COFF::MaxNumberOfSections16` is defined in
`llvm/BinaryFormat/COFF.h`, which is not under src/; the spec states the big
variant is selected exactly when the section count would overflow a 16-bit
field, so the threshold is `0xFFFF`. -/
def MaxNumberOfSections16 : Nat := 65535

/-- Models `UseBigObj = Sections.size() > COFF::MaxNumberOfSections16` in
`writeObject`. -/
def useBigObj (numSections : Nat) : Bool := MaxNumberOfSections16 < numSections

theorem writeAuxRecordBytes_length (big : Bool) (a : AuxRecord) :
    (writeAuxRecordBytes big a).length =
      if big then Symbol32Size else Symbol16Size := by
  cases big <;> cases a <;>
    simp [writeAuxRecordBytes, auxPad, le16, le32, Symbol16Size, Symbol32Size]

theorem drop_take_middle (pre mid post : List Nat) :
    ((pre ++ (mid ++ post)).drop pre.length).take mid.length = mid := by
  rw [List.drop_left, List.take_left]

/-- C5: the big-object header variant is selected exactly when the section
count does not fit the 16-bit field, and the selection switches every symbol
entry (and each auxiliary record slot) between the 18-byte layout with a
16-bit section number and the 20-byte layout with a 32-bit section number. -/
theorem c5_big_object_symbol_layout (n : Nat) (nameBytes : List Nat) (s : WSymbol)
    (hname : nameBytes.length = NameSize) :
    (useBigObj n = true ↔ ¬ n < 2 ^ 16) ∧
    (WriteSymbol true nameBytes s).length = Symbol32Size * (1 + s.aux.length) ∧
    (WriteSymbol false nameBytes s).length = Symbol16Size * (1 + s.aux.length) ∧
    (∀ a ∈ s.aux, (writeAuxRecordBytes true a).length = Symbol32Size ∧
      (writeAuxRecordBytes false a).length = Symbol16Size) ∧
    ((WriteSymbol true nameBytes s).drop 12).take 4 = le32 (toU32 s.sectionNumber) ∧
    ((WriteSymbol false nameBytes s).drop 12).take 2 = le16 (toU16 s.sectionNumber) := by
  have hjoin : ∀ big : Bool, ((s.aux.map (writeAuxRecordBytes big)).flatten).length =
      (if big then Symbol32Size else Symbol16Size) * s.aux.length := by
    intro big
    induction s.aux with
    | nil => simp
    | cons a rest ih =>
      rw [List.map_cons, List.flatten_cons, List.length_append, ih,
        writeAuxRecordBytes_length, List.length_cons]
      ring
  refine ⟨?_, ?_, ?_, ?_, ?_, ?_⟩
  · constructor
    · intro h
      simp only [useBigObj, MaxNumberOfSections16, decide_eq_true_eq] at h
      omega
    · intro h
      simp only [useBigObj, MaxNumberOfSections16, decide_eq_true_eq]
      omega
  · rw [WriteSymbol]
    simp [hname, hjoin true, le16, le32, Symbol32Size, NameSize]
    omega
  · rw [WriteSymbol]
    simp [hname, hjoin false, le16, le32, Symbol16Size, NameSize]
    omega
  · intro a _
    exact ⟨writeAuxRecordBytes_length true a, writeAuxRecordBytes_length false a⟩
  · have hshape : WriteSymbol true nameBytes s =
        (nameBytes ++ le32 s.value) ++ (le32 (toU32 s.sectionNumber) ++
          (le16 s.typ ++ ([s.storageCls % 256, s.aux.length % 256] ++
            (s.aux.map (writeAuxRecordBytes true)).flatten))) := by
      rw [WriteSymbol]
      simp [List.append_assoc]
    have h12 : (12 : Nat) = (nameBytes ++ le32 s.value).length := by
      simp [hname, le32, NameSize]
    have h4 : (4 : Nat) = (le32 (toU32 s.sectionNumber)).length := by simp [le32]
    rw [hshape, h12, h4, drop_take_middle]
  · have hshape : WriteSymbol false nameBytes s =
        (nameBytes ++ le32 s.value) ++ (le16 (toU16 s.sectionNumber) ++
          (le16 s.typ ++ ([s.storageCls % 256, s.aux.length % 256] ++
            (s.aux.map (writeAuxRecordBytes false)).flatten))) := by
      rw [WriteSymbol]
      simp [List.append_assoc]
    have h12 : (12 : Nat) = (nameBytes ++ le32 s.value).length := by
      simp [hname, le32, NameSize]
    have h2 : (2 : Nat) = (le16 (toU16 s.sectionNumber)).length := by simp [le16]
    rw [hshape, h12, h2, drop_take_middle]

/-- Witness for C5 at a concrete symbol with one auxiliary record and
section number -1 (absolute). -/
theorem c5_big_object_symbol_layout_witness :
    (WriteSymbol true (symbolNameBytes "f" 0)
        { name := "f", sectionNumber := -1,
          aux := [AuxRecord.weakExternal 3 2] }).length = Symbol32Size * (1 + 1) ∧
    ((WriteSymbol true (symbolNameBytes "f" 0)
        { name := "f", sectionNumber := -1,
          aux := [AuxRecord.weakExternal 3 2] }).drop 12).take 4 = le32 (toU32 (-1)) := by
  have h := c5_big_object_symbol_layout 1 (symbolNameBytes "f" 0)
    { name := "f", sectionNumber := -1, aux := [AuxRecord.weakExternal 3 2] }
    (by decide)
  exact ⟨h.2.1, h.2.2.2.2.1⟩

/-! ## The streamer's symbol-definition state machine (`MCVPEStreamer`). -/

/-- Result of one streamer call: the `CurSymbol` state afterwards, the
diagnostics reported through `MCVPEStreamer::Error` (which only logs to the
context's diagnostic stream), and the `setClass`/`setType` effect applied to
the open symbol, if any.  Symbols are modelled by name. -/
structure StreamerStep where
  curSymbol : Option String
  errors : List String
  setOn : Option (String × Nat)
deriving DecidableEq

/-- Models `MCVPEStreamer::BeginCOFFSymbolDef`.  Note the source reports the
error but does not return early: `CurSymbol` is assigned the new symbol in
both cases. -/
def BeginCOFFSymbolDef (cur : Option String) (s : String) : StreamerStep :=
  if cur.isSome then
    { curSymbol := some s
      errors := ["starting a new symbol definition without completing the previous one"]
      setOn := none }
  else { curSymbol := some s, errors := [], setOn := none }

/-- Models `MCVPEStreamer::EmitCOFFSymbolStorageClass`.  The storage class is
rejected when it has bits outside `COFF::SSC_Invalid = 0xff` (the numeric
condition `StorageClass & ~0xff` for a non-negative argument). -/
def EmitCOFFSymbolStorageCls (cur : Option String) (storageCls : Nat) : StreamerStep :=
  match cur with
  | none =>
    { curSymbol := none
      errors := ["storage class specified outside of symbol definition"]
      setOn := none }
  | some s =>
    if 256 ≤ storageCls then
      { curSymbol := some s, errors := ["storage class value out of range"], setOn := none }
    else { curSymbol := some s, errors := [], setOn := some (s, storageCls) }

/-- Models `MCVPEStreamer::EmitCOFFSymbolType`; the type is rejected when it
has bits outside `0xffff`. -/
def EmitCOFFSymbolType (cur : Option String) (typ : Nat) : StreamerStep :=
  match cur with
  | none =>
    { curSymbol := none
      errors := ["symbol type specified outside of a symbol definition"]
      setOn := none }
  | some s =>
    if 65536 ≤ typ then
      { curSymbol := some s, errors := ["type value out of range"], setOn := none }
    else { curSymbol := some s, errors := [], setOn := some (s, typ) }

/-- Models `MCVPEStreamer::EndCOFFSymbolDef`: the error is reported when no
definition is open, and `CurSymbol` is cleared in both cases (the source does
not return early). -/
def EndCOFFSymbolDef (cur : Option String) : StreamerStep :=
  if cur.isNone then
    { curSymbol := none
      errors := ["ending symbol definition without starting one"]
      setOn := none }
  else { curSymbol := none, errors := [], setOn := none }

/-- C6 counterexample: beginning a definition of `b` while `a` is open reports
a diagnostic but does not leave the open definition unchanged — `CurSymbol`
becomes `b`, so the claim that every such error leaves the state unchanged is
false on the code. -/
theorem c6_counterexample_begin_overwrites :
    (BeginCOFFSymbolDef (some "a") "b").errors ≠ [] ∧
    (BeginCOFFSymbolDef (some "a") "b").curSymbol = some "b" ∧
    (BeginCOFFSymbolDef (some "a") "b").curSymbol ≠ some "a" := by
  refine ⟨?_, rfl, ?_⟩ <;> decide

/-- C6 (amended): all three misuses are reported as recoverable diagnostics
(the operations are total and only log an error); setting storage class or
type while no definition is open and ending while none is open leave the
state unchanged and apply no effect, but beginning a definition while one is
open replaces the open definition with the new symbol. -/
theorem c6_streamer_state_machine (s : String) (t : String) (cls typ : Nat) :
    ((BeginCOFFSymbolDef (some t) s).errors ≠ [] ∧
      (BeginCOFFSymbolDef (some t) s).curSymbol = some s ∧
      (BeginCOFFSymbolDef (some t) s).setOn = none) ∧
    ((EmitCOFFSymbolStorageCls none cls).errors ≠ [] ∧
      (EmitCOFFSymbolStorageCls none cls).curSymbol = none ∧
      (EmitCOFFSymbolStorageCls none cls).setOn = none) ∧
    ((EmitCOFFSymbolType none typ).errors ≠ [] ∧
      (EmitCOFFSymbolType none typ).curSymbol = none ∧
      (EmitCOFFSymbolType none typ).setOn = none) ∧
    ((EndCOFFSymbolDef none).errors ≠ [] ∧
      (EndCOFFSymbolDef none).curSymbol = none ∧
      (EndCOFFSymbolDef none).setOn = none) ∧
    ((BeginCOFFSymbolDef none s).errors = [] ∧
      (BeginCOFFSymbolDef none s).curSymbol = some s) ∧
    ((EndCOFFSymbolDef (some s)).errors = [] ∧
      (EndCOFFSymbolDef (some s)).curSymbol = none) := by
  refine ⟨⟨?_, rfl, ?_⟩, ⟨?_, rfl, rfl⟩, ⟨?_, rfl, rfl⟩, ⟨?_, rfl, rfl⟩,
    ⟨?_, rfl⟩, ⟨?_, rfl⟩⟩ <;> simp [BeginCOFFSymbolDef, EmitCOFFSymbolStorageCls,
      EmitCOFFSymbolType, EndCOFFSymbolDef]

/-! ## Fatal structural violations in `writeObject`. -/

/-- Models the section-count capacity check at the top of `writeObject`
(`Sections.size() > INT32_MAX` aborts through `report_fatal_error`). -/
def checkSectionCountLimit (numSections : Nat) : Except String Unit :=
  if 2147483647 < numSections then
    Except.error "PE COFF object files cant have more than 2147483647 sections"
  else Except.ok ()

/-- Models one iteration of the associative-COMDAT fixup loop in
`writeObject` for an associative section: the argument is
`COMDATSymbol->Section` (`none` when the associated section is missing),
carrying its assigned `Number` (`-1` standing for a discarded, never-numbered
section).  `Except.ok none` means the section is skipped without error;
`Except.ok (some k)` means `k` is stored into the section-definition auxiliary
record. -/
def fixupAssociative (assoc : Option Int) : Except String (Option Int) :=
  match assoc with
  | none => Except.error "Missing associated COMDAT section for section"
  | some number => if number = -1 then Except.ok none else Except.ok (some number)

/-- C7: serialization aborts through the fatal path exactly for more than
2,147,483,647 sections, for a long-name string-table offset beyond the
base-64 range, and for an associative section whose associated target section
is missing; an associative section whose target was discarded (number `-1`)
is skipped without error, and a numbered target is stored without error. -/
theorem c7_fatal_structural_violations :
    (∀ n, (∃ e, checkSectionCountLimit n = Except.error e) ↔ 2147483647 < n) ∧
    (∀ name off, NameSize < name.length →
      (SetSectionName name off = none ↔ MaxBase64Offset < off)) ∧
    (∃ e, fixupAssociative none = Except.error e) ∧
    fixupAssociative (some (-1)) = Except.ok none ∧
    (∀ k : Int, k ≠ -1 → fixupAssociative (some k) = Except.ok (some k)) := by
  refine ⟨?_, ?_, ⟨_, rfl⟩, rfl, ?_⟩
  · intro n
    constructor
    · rintro ⟨e, he⟩
      by_cases h : 2147483647 < n
      · exact h
      · simp [checkSectionCountLimit, h] at he
    · intro h
      refine ⟨"PE COFF object files cant have more than 2147483647 sections", ?_⟩
      simp [checkSectionCountLimit, h]
  · intro name off hlong
    have h8 : ¬ name.length ≤ NameSize := by omega
    constructor
    · intro h
      by_cases hdec : off ≤ Max7DecimalOffset
      · simp [SetSectionName, h8, hdec] at h
      · by_cases hb64 : off ≤ MaxBase64Offset
        · simp [SetSectionName, h8, hdec, hb64] at h
        · simpa [MaxBase64Offset] using Nat.not_le.mp hb64
    · intro h
      have h1 : ¬ off ≤ Max7DecimalOffset := by
        simp only [Max7DecimalOffset]
        simp only [MaxBase64Offset] at h
        omega
      have h2 : ¬ off ≤ MaxBase64Offset := Nat.not_le.mpr h
      simp [SetSectionName, h8, h1, h2]
  · intro k hk
    simp [fixupAssociative, hk]

/-! ## Reader: locating the string table (`initSymbolTablePtr`) and string
    lookups (`getString`). -/

/-- The reader's error taxonomy (`object_error`): out-of-bounds reads and
structural parse failures. -/
inductive ObjErr where
  | unexpectedEOF
  | parseFailed
deriving DecidableEq

/-- Models `Binary::checkOffset` / `getObject`: the region
`[addr, addr + size)` must lie inside the buffer. -/
def checkOffset (buf : List Nat) (addr size : Nat) : Except ObjErr Unit :=
  if addr + size ≤ buf.length then Except.ok ()
  else Except.error ObjErr.unexpectedEOF

/-- Little-endian `uint32` read at `addr` (`support::ulittle32_t`). -/
def readLE32 (buf : List Nat) (addr : Nat) : Nat :=
  buf.getD addr 0 + 256 * buf.getD (addr + 1) 0 + 65536 * buf.getD (addr + 2) 0 +
    16777216 * buf.getD (addr + 3) 0

/-- Models `VPEObjectFile::initSymbolTablePtr`: bounds-check the symbol table,
read the 4-byte string-table size, bounds-check the table, clamp any size
below 4 to exactly 4 (empty), and for a size above 4 require the final byte to
be a null terminator.  Returns the resulting `StringTableSize`. -/
def initSymbolTablePtr (buf : List Nat) (ptrSymTab numSyms entrySize : Nat) :
    Except ObjErr Nat :=
  match checkOffset buf ptrSymTab (numSyms * entrySize) with
  | Except.error e => Except.error e
  | Except.ok _ =>
    let stOff := ptrSymTab + numSyms * entrySize
    match checkOffset buf stOff 4 with
    | Except.error e => Except.error e
    | Except.ok _ =>
      let size0 := readLE32 buf stOff
      match checkOffset buf stOff size0 with
      | Except.error e => Except.error e
      | Except.ok _ =>
        let size := if size0 < 4 then 4 else size0
        if 4 < size ∧ buf.getD (stOff + size - 1) 1 ≠ 0 then
          Except.error ObjErr.parseFailed
        else Except.ok size

/-- Models `VPEObjectFile::getString`: a lookup in an empty table (size at
most 4) is `parse_failed`; an offset at or past the table size is
`unexpected_eof`; otherwise the null-terminated bytes at the offset. -/
def getString (buf : List Nat) (stOff tableSize offset : Nat) :
    Except ObjErr (List Nat) :=
  if tableSize ≤ 4 then Except.error ObjErr.parseFailed
  else if tableSize ≤ offset then Except.error ObjErr.unexpectedEOF
  else Except.ok ((buf.drop (stOff + offset)).takeWhile (fun b => b ≠ 0))

/-- C8: the reader reads the first 4 bytes after the symbol table as the
string-table size including itself, treats any value below 4 (including 0)
exactly as 4, and for a size above 4 fails with a parse error unless the
final table byte is null; a lookup into an empty table is a parse error and
an offset at or past the table size is an unexpected-end-of-data error. -/
theorem c8_string_table_size_handling (buf : List Nat)
    (ptrSymTab numSyms entrySize : Nat) :
    (readLE32 buf (ptrSymTab + numSyms * entrySize) < 4 →
      ptrSymTab + numSyms * entrySize + 4 ≤ buf.length →
      initSymbolTablePtr buf ptrSymTab numSyms entrySize = Except.ok 4) ∧
    (readLE32 buf (ptrSymTab + numSyms * entrySize) = 4 →
      ptrSymTab + numSyms * entrySize + 4 ≤ buf.length →
      initSymbolTablePtr buf ptrSymTab numSyms entrySize = Except.ok 4) ∧
    (∀ size0, size0 = readLE32 buf (ptrSymTab + numSyms * entrySize) → 4 < size0 →
      ptrSymTab + numSyms * entrySize + size0 ≤ buf.length →
      (buf.getD (ptrSymTab + numSyms * entrySize + size0 - 1) 1 ≠ 0 →
        initSymbolTablePtr buf ptrSymTab numSyms entrySize
          = Except.error ObjErr.parseFailed) ∧
      (buf.getD (ptrSymTab + numSyms * entrySize + size0 - 1) 1 = 0 →
        initSymbolTablePtr buf ptrSymTab numSyms entrySize = Except.ok size0)) ∧
    (∀ stOff offset tableSize, tableSize ≤ 4 →
      getString buf stOff tableSize offset = Except.error ObjErr.parseFailed) ∧
    (∀ stOff offset tableSize, 4 < tableSize → tableSize ≤ offset →
      getString buf stOff tableSize offset = Except.error ObjErr.unexpectedEOF) := by
  have hck0 : ∀ _ : ptrSymTab + numSyms * entrySize + 4 ≤ buf.length,
      checkOffset buf ptrSymTab (numSyms * entrySize) = Except.ok () := fun hlen => by
    rw [checkOffset, if_pos (by omega)]
  have hck4 : ∀ _ : ptrSymTab + numSyms * entrySize + 4 ≤ buf.length,
      checkOffset buf (ptrSymTab + numSyms * entrySize) 4 = Except.ok () := fun hlen => by
    rw [checkOffset, if_pos (by omega)]
  refine ⟨?_, ?_, ?_, ?_, ?_⟩
  · intro hsize hlen
    have hcks : checkOffset buf (ptrSymTab + numSyms * entrySize)
        (readLE32 buf (ptrSymTab + numSyms * entrySize)) = Except.ok () := by
      rw [checkOffset, if_pos (by omega)]
    rw [initSymbolTablePtr]
    simp only [hck0 hlen, hck4 hlen, hcks]
    rw [if_pos hsize, if_neg (fun h => absurd h.1 (by omega))]
  · intro hsize hlen
    have hcks : checkOffset buf (ptrSymTab + numSyms * entrySize)
        (readLE32 buf (ptrSymTab + numSyms * entrySize)) = Except.ok () := by
      rw [checkOffset, if_pos (by omega)]
    rw [initSymbolTablePtr]
    simp only [hck0 hlen, hck4 hlen, hcks]
    rw [if_neg (show ¬ readLE32 buf (ptrSymTab + numSyms * entrySize) < 4 by omega),
      if_neg (fun h => absurd h.1 (by omega)), hsize]
  · intro size0 hsize0 hgt hlen
    have hlen4 : ptrSymTab + numSyms * entrySize + 4 ≤ buf.length := by omega
    have hcks : checkOffset buf (ptrSymTab + numSyms * entrySize)
        (readLE32 buf (ptrSymTab + numSyms * entrySize)) = Except.ok () := by
      rw [checkOffset, if_pos (by omega)]
    constructor
    · intro hlast
      have hlast2 : buf.getD (ptrSymTab + numSyms * entrySize +
          readLE32 buf (ptrSymTab + numSyms * entrySize) - 1) 1 ≠ 0 := by
        rw [← hsize0]
        exact hlast
      rw [initSymbolTablePtr]
      simp only [hck0 hlen4, hck4 hlen4, hcks]
      rw [if_neg (show ¬ readLE32 buf (ptrSymTab + numSyms * entrySize) < 4 by omega),
        if_pos ⟨by omega, hlast2⟩]
    · intro hlast
      have hlast2 : buf.getD (ptrSymTab + numSyms * entrySize +
          readLE32 buf (ptrSymTab + numSyms * entrySize) - 1) 1 = 0 := by
        rw [← hsize0]
        exact hlast
      rw [initSymbolTablePtr]
      simp only [hck0 hlen4, hck4 hlen4, hcks]
      rw [if_neg (show ¬ readLE32 buf (ptrSymTab + numSyms * entrySize) < 4 by omega),
        if_neg (fun h => h.2 hlast2), ← hsize0]
  · intro stOff2 offset tableSize hle
    rw [getString, if_pos hle]
  · intro stOff2 offset tableSize hgt hoff
    rw [getString, if_neg (by omega), if_pos hoff]

/-! ## File-offset assignment (`assignFileOffsets`) and section serialization
    (`writeSection`): the padding invariant. -/

/-- Models `COFF::IMAGE_SCN_CNT_UNINITIALIZED_DATA`. -/
def IMAGE_SCN_CNT_UNINITIALIZED_DATA : Nat := 128

/-- Models a staged section as `assignFileOffsets` consumes it: the layout
size of its data (`Layout.getSectionAddressSize`), its relocation count, and
its characteristics bitmask. -/
structure FSection where
  sizeOfRawData : Nat
  relocCount : Nat
  characteristics : Nat
deriving DecidableEq

/-- Models `VPEObjectWriter::IsPhysicalSection`: no uninitialized-data flag. -/
def IsPhysicalSection (s : FSection) : Bool :=
  s.characteristics &&& IMAGE_SCN_CNT_UNINITIALIZED_DATA = 0

/-- Models `COFF::RelocationSize` (10 bytes: spec section 6). -/
def RelocationSize : Nat := 10
/-- Models `COFF::SectionSize` (40-byte section header: spec section 6). -/
def SectionSize : Nat := 40
/-- Models `COFF::Header16Size` (20-byte regular header: spec section 6). -/
def Header16Size : Nat := 20
/-- Models `COFF::Header32Size` (56-byte big-object header: spec section 6). -/
def Header32Size : Nat := 56

/-- Models `alignTo(Offset, 4)`. -/
def alignTo4 (n : Nat) : Nat := (n + 3) / 4 * 4

/-- The on-file offsets `assignFileOffsets` records into one section
header. -/
structure SecHeaderOffsets where
  pointerToRawData : Nat
  sizeOfRawData : Nat
  pointerToRelocations : Nat
  numberOfRelocations : Nat
deriving DecidableEq

/-- Bytes occupied by a section's relocation table, including the synthetic
overflow record when the count saturates. -/
def relocBytes (count : Nat) : Nat :=
  (if 0xffff ≤ count then RelocationSize else 0) + RelocationSize * count

/-- Models the loop body of `assignFileOffsets`: per section, round the
running offset up to a 4-byte boundary for physical sections and record the
raw-data pointer, then place the relocation table.  Returns the headers and
the final running offset (`Header.PointerToSymbolTable`). -/
def assignFileOffsetsLoop : List FSection → Nat → List SecHeaderOffsets × Nat
  | [], o => ([], o)
  | s :: rest, o =>
    let rawPtr := if IsPhysicalSection s then alignTo4 o else 0
    let o1 := if IsPhysicalSection s then alignTo4 o + s.sizeOfRawData else o
    let relocPtr := if s.relocCount ≠ 0 then o1 else 0
    let o2 := if s.relocCount ≠ 0 then o1 + relocBytes s.relocCount else o1
    let r := assignFileOffsetsLoop rest o2
    (⟨rawPtr, s.sizeOfRawData, relocPtr, numberOfRelocationsField s.relocCount⟩ :: r.1,
      r.2)

/-- Models `VPEObjectWriter::assignFileOffsets`: the running offset starts
after the file header and the section-header table. -/
def assignFileOffsets (startOffset : Nat) (big : Bool) (secs : List FSection) :
    List SecHeaderOffsets × Nat :=
  assignFileOffsetsLoop secs
    (startOffset + (if big then Header32Size else Header16Size) +
      SectionSize * secs.length)

/-- The header `assignFileOffsetsLoop` records for a section entered at
running offset `o`. -/
def secHeaderOf (s : FSection) (o : Nat) : SecHeaderOffsets :=
  ⟨if IsPhysicalSection s then alignTo4 o else 0, s.sizeOfRawData,
   if s.relocCount ≠ 0 then
     (if IsPhysicalSection s then alignTo4 o + s.sizeOfRawData else o)
   else 0,
   numberOfRelocationsField s.relocCount⟩

/-- The running offset after `assignFileOffsetsLoop` processed a section
entered at `o`. -/
def nextOffset (s : FSection) (o : Nat) : Nat :=
  (if IsPhysicalSection s then alignTo4 o + s.sizeOfRawData else o) +
    (if s.relocCount ≠ 0 then relocBytes s.relocCount else 0)

theorem assignFileOffsetsLoop_cons (s : FSection) (rest : List FSection) (o : Nat) :
    assignFileOffsetsLoop (s :: rest) o =
      (secHeaderOf s o :: (assignFileOffsetsLoop rest (nextOffset s o)).1,
       (assignFileOffsetsLoop rest (nextOffset s o)).2) := by
  rw [assignFileOffsetsLoop]
  simp only [secHeaderOf, nextOffset]
  by_cases h2 : s.relocCount = 0 <;> simp [h2]

/-- Models the stream position after `writeSection` handled one section,
given the position at entry: zero-padding up to the recorded raw-data pointer
plus the contents for physical sections, then the relocation records. -/
def writeSectionTellAfter (tell : Nat) (s : FSection) (h : SecHeaderOffsets) : Nat :=
  let t1 := if h.pointerToRawData ≠ 0 then h.pointerToRawData + h.sizeOfRawData else tell
  if s.relocCount = 0 then t1 else t1 + relocBytes s.relocCount

/-- The stream position at entry of `writeSection` for each section, walking
the sections in original order. -/
def writeTells : List (FSection × SecHeaderOffsets) → Nat → List Nat
  | [], _ => []
  | p :: rest, t => t :: writeTells rest (writeSectionTellAfter t p.1 p.2)

theorem alignTo4_bounds (n : Nat) : n ≤ alignTo4 n ∧ alignTo4 n < n + 4 := by
  have h := Nat.div_add_mod (n + 3) 4
  have h2 : (n + 3) % 4 < 4 := Nat.mod_lt _ (by omega)
  rw [alignTo4]
  omega

theorem writeSectionTellAfter_secHeaderOf (s : FSection) (o : Nat) (hpos : 0 < o) :
    writeSectionTellAfter o s (secHeaderOf s o) = nextOffset s o := by
  rw [writeSectionTellAfter, secHeaderOf, nextOffset]
  by_cases h1 : IsPhysicalSection s
  · have h3 : alignTo4 o ≠ 0 := by
      have := (alignTo4_bounds o).1
      omega
    by_cases h2 : s.relocCount = 0 <;> simp [h1, h2, h3]
  · by_cases h2 : s.relocCount = 0 <;> simp [h1, h2]

theorem nextOffset_pos (s : FSection) (o : Nat) (hpos : 0 < o) :
    0 < nextOffset s o := by
  rw [nextOffset]
  have := (alignTo4_bounds o).1
  by_cases h1 : IsPhysicalSection s <;> simp [h1] <;> omega

theorem paddingInvariantLoop : ∀ (secs : List FSection) (o : Nat), 0 < o →
    ∀ (k : Nat) (s : FSection) (h : SecHeaderOffsets) (t : Nat),
    secs[k]? = some s → IsPhysicalSection s = true →
    (assignFileOffsetsLoop secs o).1[k]? = some h →
    (writeTells (secs.zip (assignFileOffsetsLoop secs o).1) o)[k]? = some t →
    t ≤ h.pointerToRawData ∧ h.pointerToRawData < t + 4 := by
  intro secs
  induction secs with
  | nil =>
    intro o _ k s h t hs
    simp at hs
  | cons s0 rest ih =>
    intro o hpos k s h t hs hphys hh ht
    rw [assignFileOffsetsLoop_cons] at hh ht
    cases k with
    | zero =>
      simp only [List.getElem?_cons_zero, Option.some.injEq] at hs hh
      subst hs
      subst hh
      simp only [List.zip_cons_cons, writeTells, List.getElem?_cons_zero,
        Option.some.injEq] at ht
      have hb := alignTo4_bounds o
      simp [secHeaderOf, hphys]
      omega
    | succ k =>
      simp only [List.getElem?_cons_succ] at hs hh
      simp only [List.zip_cons_cons, writeTells, List.getElem?_cons_succ] at ht
      rw [writeSectionTellAfter_secHeaderOf s0 o hpos] at ht
      exact ih (nextOffset s0 o) (nextOffset_pos s0 o hpos) k s h t hs hphys hh ht

/-- C9: for every physical section, the stream position on entering
`writeSection` never exceeds the section's recorded raw-data pointer, and the
zero-padding written to reach it is strictly under 4 bytes, because
`assignFileOffsets` rounds each physical section's raw-data pointer up to a
4-byte boundary from the running offset. -/
theorem c9_section_padding_under_four (startOffset : Nat) (big : Bool)
    (secs : List FSection) (k : Nat) (s : FSection) (h : SecHeaderOffsets) (t : Nat)
    (hs : secs[k]? = some s) (hphys : IsPhysicalSection s = true)
    (hh : (assignFileOffsets startOffset big secs).1[k]? = some h)
    (ht : (writeTells (secs.zip (assignFileOffsets startOffset big secs).1)
        (startOffset + (if big then Header32Size else Header16Size) +
          SectionSize * secs.length))[k]? = some t) :
    t ≤ h.pointerToRawData ∧ h.pointerToRawData - t < 4 := by
  have hpos : 0 < startOffset + (if big then Header32Size else Header16Size) +
      SectionSize * secs.length := by
    cases big <;> simp [Header16Size, Header32Size]
  have hinv := paddingInvariantLoop secs _ hpos k s h t hs hphys hh ht
  omega

/-- Witness for C9: one 5-byte physical section written from a fresh stream;
its raw data lands at offset 60 with zero padding. -/
theorem c9_section_padding_under_four_witness :
    (60 : Nat) ≤ 60 ∧ (60 : Nat) - 60 < 4 :=
  c9_section_padding_under_four 0 false [⟨5, 0, 0⟩] 0 ⟨5, 0, 0⟩ ⟨60, 5, 0, 0⟩ 60
    (by decide) (by decide) (by decide) (by decide)

/-! ## Whole-object serialization (`writeObject`) and the timestamp. -/

/-- Models `WriteRelocation`: virtual address, symbol index, type — 10
bytes. -/
def WriteRelocation (r : Reloc) : List Nat :=
  le32 r.virtualAddress ++ le32 r.symbolTableIndex ++ le16 r.typ

/-- Models `COFF::IMAGE_SCN_LNK_NRELOC_OVFL` (bit 24). -/
def IMAGE_SCN_LNK_NRELOC_OVFL : Nat := 16777216

/-- Models a fully staged section at serialization time: the 8 name bytes set
by `SetSectionName`, the header fields the writer populated, its COMDAT
selection, its raw contents, and its staged relocations. -/
structure StagedSection where
  nameBytes : List Nat
  virtualSize : Nat
  virtualAddress : Nat
  characteristics : Nat
  selection : Nat
  contents : List Nat
  relocs : List Reloc
deriving DecidableEq

/-- The offset-relevant view of a staged section (`SizeOfRawData` is the
layout size of its contents). -/
def toFSection (s : StagedSection) : FSection :=
  ⟨s.contents.length, s.relocs.length, s.characteristics⟩

/-- Models one record of `writeSectionHeaders`: the overflow characteristic is
added for saturated relocation counts, and the line-number fields stay
zero. -/
def sectionHeaderBytes (s : StagedSection) (h : SecHeaderOffsets) : List Nat :=
  (s.nameBytes ++ le32 s.virtualSize ++ le32 s.virtualAddress ++
    le32 h.sizeOfRawData ++ le32 h.pointerToRawData ++ le32 h.pointerToRelocations ++
    le32 0 ++ le16 h.numberOfRelocations ++ le16 0 ++
    le32 (if 0xffff ≤ s.relocs.length then
      s.characteristics ||| IMAGE_SCN_LNK_NRELOC_OVFL
    else s.characteristics))

/-- Models the bytes `writeSection` emits for one section entered at stream
position `tell`: zero padding up to the recorded raw-data pointer and the
contents for physical sections, then the relocation records (synthetic
overflow entry included). -/
def sectionBody (tell : Nat) (s : StagedSection) (h : SecHeaderOffsets) : List Nat :=
  (if h.pointerToRawData ≠ 0 then
    List.replicate (h.pointerToRawData - tell) 0 ++ s.contents
  else []) ++
  ((emittedRelocations s.relocs).map WriteRelocation).flatten

/-- The concatenated section bodies, in original section order. -/
def sectionBodiesBytes : List (StagedSection × SecHeaderOffsets) → Nat → List Nat
  | [], _ => []
  | p :: rest, t =>
    sectionBody t p.1 p.2 ++
      sectionBodiesBytes rest (writeSectionTellAfter t (toFSection p.1) p.2)

/-- Models `COFF::header` as the writer fills it. -/
structure FileHeader where
  machine : Nat
  numberOfSections : Nat
  timeDateStamp : Nat
  pointerToSymbolTable : Nat
  numberOfSymbols : Nat
  sizeOfOptionalHeader : Nat
  characteristics : Nat
deriving DecidableEq

/-- Models `COFF::IMAGE_FILE_MACHINE_UNKNOWN`. -/
def IMAGE_FILE_MACHINE_UNKNOWN : Nat := 0

/-- Models `COFF::BigObjHeader::MinBigObjectVersion`. -/
def MinBigObjectVersion : Nat := 2

/-- Modelled from the spec: `COFF::BigObjMagic`, the 16-byte magic UUID of the
big-object header; it lives in `llvm/BinaryFormat/COFF.h`, which is not under
src/, and its exact byte values play no role in the claims below, so it is
kept as an abstract 16-byte constant. -/
def BigObjMagic : List Nat := List.replicate 16 0

/-- Models `VPEObjectWriter::WriteFileHeader`, both layouts. -/
def WriteFileHeader (big : Bool) (h : FileHeader) : List Nat :=
  if big then
    le16 IMAGE_FILE_MACHINE_UNKNOWN ++ le16 0xFFFF ++ le16 MinBigObjectVersion ++
    le16 h.machine ++ le32 h.timeDateStamp ++ BigObjMagic ++
    le32 0 ++ le32 0 ++ le32 0 ++ le32 0 ++
    le32 h.numberOfSections ++ le32 h.pointerToSymbolTable ++ le32 h.numberOfSymbols
  else
    le16 h.machine ++ le16 h.numberOfSections ++ le32 h.timeDateStamp ++
    le32 h.pointerToSymbolTable ++ le32 h.numberOfSymbols ++
    le16 h.sizeOfOptionalHeader ++ le16 h.characteristics

/-- Models `getTime()`: the current time, clamped to `UINT32_MAX` when
negative or not representable in 32 bits. -/
def getTime (now : Int) : Nat :=
  if now < 0 ∨ ¬ now < 4294967296 then 4294967295 else now.toNat

/-- Models the `TimeDateStamp` selection in `writeObject`: the clock only when
incremental-linker compatibility was requested, 0 otherwise. -/
def timeDateStamp (incrementalLinkerCompatible : Bool) (now : Int) : Nat :=
  if incrementalLinkerCompatible then getTime now else 0

/-- Models the writer's staged state at the top of `writeObject`: machine,
the incremental-linker flag of the assembler, sections, symbols (with their 8
name bytes), and the finalized string-table blob. -/
structure StagedObject where
  machine : Nat
  incrementalLinkerCompatible : Bool
  sections : List StagedSection
  symbols : List (List Nat × WSymbol)
  stringTable : List Nat
deriving DecidableEq

/-- Models the serialization tail of `writeObject`: file header, section
headers sorted by assigned number (all non-associative sections first, the
stable order of `assignSectionNumbers`), section bodies in original order,
symbol table, string table.  `now` is the clock value `time(nullptr)` would
return — the only input that is not a function of the staged state. -/
def writeObjectBytes (obj : StagedObject) (now : Int) : List Nat :=
  let big := useBigObj obj.sections.length
  let offs := assignFileOffsets 0 big (obj.sections.map toFSection)
  let pairs := obj.sections.zip offs.1
  WriteFileHeader big
    { machine := obj.machine
      numberOfSections := obj.sections.length
      timeDateStamp := timeDateStamp obj.incrementalLinkerCompatible now
      pointerToSymbolTable := offs.2
      numberOfSymbols := totalSymbolEntries (obj.symbols.map Prod.snd)
      sizeOfOptionalHeader := 0
      characteristics := 0 } ++
  ((pairs.filter fun p => !(p.1.selection == IMAGE_COMDAT_SELECT_ASSOCIATIVE)).map
      fun p => sectionHeaderBytes p.1 p.2).flatten ++
  ((pairs.filter fun p => p.1.selection == IMAGE_COMDAT_SELECT_ASSOCIATIVE).map
      fun p => sectionHeaderBytes p.1 p.2).flatten ++
  sectionBodiesBytes pairs
    (0 + (if big then Header32Size else Header16Size) +
      SectionSize * obj.sections.length) ++
  (obj.symbols.map fun p => WriteSymbol big p.1 p.2).flatten ++
  obj.stringTable

/-- C10: without incremental-linker compatibility the header timestamp is
written as exactly 0 and the output is byte-identical across invocations at
different clock values; with it, the timestamp is the current time clamped to
`UINT32_MAX` when negative or not representable in 32 bits. -/
theorem c10_deterministic_timestamp (obj : StagedObject) (now now2 : Int) :
    (obj.incrementalLinkerCompatible = false →
      writeObjectBytes obj now = writeObjectBytes obj now2) ∧
    timeDateStamp false now = 0 ∧
    (obj.incrementalLinkerCompatible = true →
      timeDateStamp obj.incrementalLinkerCompatible now = getTime now) ∧
    (now < 0 → getTime now = 4294967295) ∧
    (4294967296 ≤ now → getTime now = 4294967295) ∧
    (0 ≤ now → now < 4294967296 → getTime now = now.toNat) := by
  refine ⟨?_, rfl, ?_, ?_, ?_, ?_⟩
  · intro h
    rw [writeObjectBytes, writeObjectBytes]
    simp only [timeDateStamp, h, Bool.false_eq_true, if_false]
  · intro h
    rw [h]
    rfl
  · intro h
    rw [getTime, if_pos (Or.inl h)]
  · intro h
    rw [getTime, if_pos (Or.inr (by omega))]
  · intro h1 h2
    rw [getTime, if_neg (by push_neg; exact ⟨by omega, h2⟩)]

end VPE
